import Mathlib

/-!
Shallow embedding of `src/app/texas_bar_profile.py` (and its earlier variant
`src/app/TexasBarProfile.py`) from the TexasBarProfile repository, together
with theorems settling the specification claims.

The Python code scrapes a paginated attorney directory: it builds form
parameters in a shared dict (`TexasBarProfile.__init__` / `retrieve`),
fetches pages with an unbounded retry loop, extracts per-entry fields with
BeautifulSoup (`extract`, `parse_address`), and persists records into a
SQLite table with `INSERT OR IGNORE` keyed by a unique index on
`bar_number` (`create_table` / `insert_attorney`).  `main` drives the
page loop until an empty batch is parsed.

Python-level behaviours are modelled explicitly:
  * `None.text` / `None['href']` accesses become `Except` errors
    (`attributeError` / `typeError`), list over-indexing becomes
    `indexError`;
  * `str.strip`, `str.split`, slicing `[1:-1]` and `str.replace` are
    re-implemented over `List Char`;
  * the mutable `self.data` dict becomes a function `String → Option Val`
    updated by explicit writes;
  * network calls are modelled by their outcome sequences, `time.sleep`
    by a counter, and loops by an explicit fuel argument.
-/

namespace TexasBar

/-- Python exception kinds that the modelled code can raise. -/
inductive PyErr : Type where
  | attributeError : PyErr
  | typeError : PyErr
  | indexError : PyErr
deriving DecidableEq, Repr

/-- Characters stripped by Python `str.strip()` with no argument
(ASCII whitespace; the exotic Unicode whitespace Python also strips
never occurs in the data handled by this program). -/
def isPySpace (c : Char) : Bool :=
  c == ' ' || c == '\t' || c == '\n' || c == '\r' || c == '\x0b' || c == '\x0c'

/-- Python `str.strip()` on a character list. -/
def pyStripList (l : List Char) : List Char :=
  ((l.dropWhile isPySpace).reverse.dropWhile isPySpace).reverse

/-- Python `str.strip()`. -/
def pyStrip (s : String) : String :=
  ⟨pyStripList s.data⟩

/-- Python `str.split(sep)` for a one-character separator `sep`
(all separators used by the source are single characters).
Like Python, splitting the empty string yields `[""]`. -/
def pySplitChar (c : Char) : List Char → List (List Char)
  | [] => [[]]
  | x :: xs =>
    let r := pySplitChar c xs
    if x = c then [] :: r
    else
      match r with
      | [] => [[x]]
      | a :: rest => (x :: a) :: rest

/-- Python `str.split(sep)` for a one-character separator, on strings. -/
def pySplit (s : String) (c : Char) : List String :=
  (pySplitChar c s.data).map fun l => ⟨l⟩

/-- Split a character list at the first occurrence of `c`:
`some (before, after)` when `c` occurs, `none` otherwise.  Models Python
`s.split(c, 1)` at call sites where the separator is known to occur. -/
def pySplitOnce (c : Char) : List Char → Option (List Char × List Char)
  | [] => none
  | x :: xs =>
    if x = c then some ([], xs)
    else (pySplitOnce c xs).map fun p => (x :: p.1, p.2)

/-- Python slice `s[1:-1]` (used to peel the parentheses off the
familiar-name element). -/
def pySlice1m1 (s : String) : String :=
  ⟨(s.data.drop 1).dropLast⟩

/-- One fuel step of `str.replace(pat, '')`; fuel is the length of the
remaining input, which bounds the number of steps. -/
def pyReplaceDelAux (pat : List Char) : Nat → List Char → List Char
  | 0, _ => []
  | _, [] => []
  | fuel + 1, x :: xs =>
    if pat.isPrefixOf (x :: xs) ∧ pat ≠ [] then
      pyReplaceDelAux pat fuel ((x :: xs).drop pat.length)
    else
      x :: pyReplaceDelAux pat fuel xs

/-- Python `s.replace(pat, '')` — every `replace` call in the source has an
empty replacement string, so only deletion is modelled. -/
def pyReplaceDel (s pat : String) : String :=
  ⟨pyReplaceDelAux pat.data s.data.length s.data⟩

/-- Python list indexing `l[i]` for a non-negative index: raises
`IndexError` when the index is out of range. -/
def pyIndex {α : Type} (l : List α) (i : Nat) : Except PyErr α :=
  match l.get? i with
  | some v => Except.ok v
  | none => Except.error PyErr.indexError

/-- The dict returned by `parse_address`. -/
structure Addr where
  street : String
  city : String
  state : String
  zip : String
deriving DecidableEq, Repr

/-- The non-breaking space (`'\\xa0'` in the source) separating state from ZIP. -/
def nbspChar : Char := '\u00A0'

/-- `parse_address(address)` from `texas_bar_profile.py` (identical in
`TexasBarProfile.py` up to an unused binding).  The BeautifulSoup tag is
characterised by the two sequences the function reads from it:
`children` — the stripped `.text` of each child is taken from these — and
`strs` — the raw `.strings` of the tag, used as a fallback when the second
child renders empty.  Over-indexing raises `IndexError`, as in Python. -/
def parse_address (children strs : List String) : Except PyErr Addr :=
  let parts0 := children.map pyStrip
  match pyIndex parts0 1 with
  | Except.error err => Except.error err
  | Except.ok chk =>
    let parts1 := if chk = "" then strs.map pyStrip else parts0
    match pyIndex parts1 0 with
    | Except.error err => Except.error err
    | Except.ok street =>
      match pyIndex parts1 1 with
      | Except.error err => Except.error err
      | Except.ok csz =>
        let parts2 := pySplit csz ','
        match pyIndex parts2 0 with
        | Except.error err => Except.error err
        | Except.ok city =>
          if h : 1 < parts2.length then
            let parts3 := pySplit (parts2.get ⟨1, h⟩) nbspChar
            if h2 : 1 < parts3.length then
              Except.ok ⟨street, city, parts3.headI, parts3.get ⟨1, h2⟩⟩
            else
              Except.ok ⟨street, city, parts3.headI, ""⟩
          else
            Except.ok ⟨street, city, "", ""⟩

/-- The given-name/middle-name computation of `TexasBarProfile.extract`:
`gnames` is the list of `.text` contents of the `given-name` spans.
Two spans: first (stripped) is the given name, second the middle name.
One span containing a space after stripping: split at the first space
(`fname.split(' ', 1)`); the `none` branch of the split is unreachable
because it is guarded by the containment test. -/
def splitGivenNames (gnames : List String) : String × String :=
  let fname := match gnames with
    | [] => ""
    | g :: _ => pyStrip g
  if h : 1 < gnames.length then
    (fname, pyStrip (gnames.get ⟨1, h⟩))
  else if fname.data.contains ' ' then
    match pySplitOnce ' ' fname.data with
    | some (a, b) => (⟨a⟩, ⟨b⟩)
    | none => (fname, "")
  else
    (fname, "")

/-! ### The listing-entry extraction of `TexasBarProfile.extract` -/

/-- A `<p class="address">` tag, characterised by what `parse_address`
reads from it (stripped child texts and raw text nodes). -/
structure AddressTag where
  children : List String
  strs : List String
deriving DecidableEq, Repr

/-- One `<article class="lawyer">` listing entry, characterised by the
results of the `find`/`find_all` calls `extract` performs on it: `none`
models BeautifulSoup's `find` returning `None`, `some t` a found element
whose `.text` is `t`.  `detail` is the `href` of the first anchor whose
`href` matches the detail-link filter (`none` when there is none, in which
case `None['href']` raises `TypeError`). -/
structure Entry where
  pfx : Option String
  gnames : List String
  additional : Option String
  family : Option String
  sfx : Option String
  firm : Option String
  addr : Option AddressTag
  tel : Option String
  detail : Option String
deriving DecidableEq, Repr

/-- The fields `extract` reads off a (successfully fetched) detail page:
the text following the "bar card number" label, the text following the
"tx license date" label, and the raw text of the `<p class="areas">`
block when present. -/
structure DetailPage where
  barNumber : String
  licenseDate : String
  practiceAreas : Option String
deriving DecidableEq, Repr

/-- The attorney dict built by `extract` (one yielded element). -/
structure Attorney where
  bar_number : String
  license_date : String
  pfx : String
  fname : String
  mname : String
  lname : String
  sfx : String
  firm : String
  address : Option Addr
  familiar_name : String
  telephone : String
  detail_url : String
  practice_areas : Option String
deriving DecidableEq, Repr

/-- `x.text.strip()` on the result `x` of a BeautifulSoup `find`:
`AttributeError` when the element is absent (`x` is `None`). -/
def getAttr : Option String → Except PyErr String
  | some t => Except.ok (pyStrip t)
  | none => Except.error PyErr.attributeError

/-- The `if address_tag: address = parse_address(address_tag)` step of
`extract`: absent tag leaves the address empty (modelled `none`); a
present tag is parsed, propagating any exception. -/
def addrStep : Option AddressTag → Except PyErr (Option Addr)
  | some t => Except.map some (parse_address t.children t.strs)
  | none => Except.ok none

/-- The noise-stripping applied to the practice-areas text in `extract`. -/
def cleanPracticeAreas (t : String) : String :=
  pyStrip (pyReplaceDel (pyReplaceDel (pyReplaceDel (pyReplaceDel
    (pyReplaceDel t "Practice Areas:") "\n") "\r") "<strong>") "</strong>")

/-- The body of `TexasBarProfile.extract` for one listing entry, with the
detail-page fetch abstracted by the `DetailPage` it eventually yields
(the fetch itself retries transport errors forever, see `retryFetch`).
Steps appear in source order: name splitting, familiar name, address
parse (may raise `IndexError`), telephone (guarded by `try/except
AttributeError`), detail link (`TypeError` when absent), and the dict
construction whose `.text` accesses raise `AttributeError` for a missing
`prefix`, `family-name`, `suffix` or `h5` firm element, in that order. -/
def extractEntry (e : Entry) (d : DetailPage) : Except PyErr Attorney :=
  let nm := splitGivenNames e.gnames
  let additional := match e.additional with
    | some t => pySlice1m1 (pyStrip t)
    | none => ""
  match addrStep e.addr with
  | Except.error err => Except.error err
  | Except.ok address =>
    let telephone := match e.tel with
      | some t => pyStrip t
      | none => ""
    match e.detail with
    | none => Except.error PyErr.typeError
    | some detail_url =>
      let pa := Option.map cleanPracticeAreas d.practiceAreas
      match getAttr e.pfx with
      | Except.error err => Except.error err
      | Except.ok pfxText =>
        match getAttr e.family with
        | Except.error err => Except.error err
        | Except.ok lnameText =>
          match getAttr e.sfx with
          | Except.error err => Except.error err
          | Except.ok sfxText =>
            match getAttr e.firm with
            | Except.error err => Except.error err
            | Except.ok firmText =>
              Except.ok
                { bar_number := pyStrip d.barNumber
                  license_date := pyStrip d.licenseDate
                  pfx := pfxText
                  fname := nm.1
                  mname := nm.2
                  lname := lnameText
                  sfx := sfxText
                  firm := firmText
                  address := address
                  familiar_name := additional
                  telephone := pyReplaceDel telephone "Tel: "
                  detail_url := detail_url
                  practice_areas := pa }

/-- `parse` = `list(self.extract(lawyers))`: the generator is drained into
a list; an exception raised while extracting any entry propagates out of
`list(...)`, discarding all entries (including those already yielded). -/
def extractAll : List (Entry × DetailPage) → Except PyErr (List Attorney)
  | [] => Except.ok []
  | p :: rest =>
    match extractEntry p.1 p.2 with
    | Except.error err => Except.error err
    | Except.ok a =>
      match extractAll rest with
      | Except.error err => Except.error err
      | Except.ok tl => Except.ok (a :: tl)

/-! ### The SQLite store: `create_table` / `insert_attorney` -/

/-- One row of the `attorneys` table created by `create_table` (all
`MergedRecord` fields flattened, plus the page ordinal and the fixed
jurisdiction tag).  The address columns are `Option` because
`attorney.get('address', {}).get(...)` yields `None` (SQL `NULL`) when
the address is not a dict; likewise `practice_areas` can be `None`. -/
structure Row where
  bar_number : String
  license_date : String
  pfx : String
  fname : String
  mname : String
  lname : String
  sfx : String
  firm : String
  street : Option String
  city : Option String
  state : Option String
  zip : Option String
  familiar_name : String
  telephone : String
  detail_url : String
  practice_areas : Option String
  page : Nat
  county : String
deriving DecidableEq, Repr

/-- The tuple bound by `insert_attorney`'s `INSERT OR IGNORE` statement. -/
def mkRow (a : Attorney) (page : Nat) : Row :=
  { bar_number := a.bar_number
    license_date := a.license_date
    pfx := a.pfx
    fname := a.fname
    mname := a.mname
    lname := a.lname
    sfx := a.sfx
    firm := a.firm
    street := a.address.map Addr.street
    city := a.address.map Addr.city
    state := a.address.map Addr.state
    zip := a.address.map Addr.zip
    familiar_name := a.familiar_name
    telephone := a.telephone
    detail_url := a.detail_url
    practice_areas := a.practice_areas
    page := page
    county := "Dallas" }

/-- `insert_attorney(attorney, page)`: `INSERT OR IGNORE` against the
table whose unique index is `idx_bar_number ON attorneys(bar_number)` —
the row is appended unless a row with the same `bar_number` already
exists, in which case the statement is a no-op.  Each call opens its own
connection and commits, so the effect is immediately durable. -/
def insert_attorney (db : List Row) (a : Attorney) (page : Nat) : List Row :=
  if db.any fun r => r.bar_number == a.bar_number then db
  else db ++ [mkRow a page]

/-! ### The page loop of `main`

`main` fetches page 0, parses it, and then repeats
`while batch: insert each attorney; page += 1; fetch & parse page`
inside a `try` whose `except Exception` ends the run.  Two views of this
loop are given: `fetchedPages` records which page ordinals are fetched
(for the termination claim), and `mainLoop` records the store contents
and the aborting exception (for the fatality claim).  Both use explicit
fuel since the `while` has no intrinsic bound. -/

/-- Page ordinals fetched by the `while batch:` loop after page `n` has
been parsed: the loop fetches page `n+1` only when page `n`'s batch is
non-empty (`while batch:` on a list tests non-emptiness). -/
def fetchLoop {A : Type} (pages : Nat → List A) : Nat → Nat → List Nat
  | _, 0 => []
  | n, fuel + 1 =>
    if (pages n).isEmpty then []
    else (n + 1) :: fetchLoop pages (n + 1) fuel

/-- All page ordinals fetched by `main`: page 0 unconditionally, then the
loop.  `pages n` is the batch the parser yields for page `n`. -/
def fetchedPages {A : Type} (pages : Nat → List A) (fuel : Nat) : List Nat :=
  0 :: fetchLoop pages 0 fuel

/-- `for attorney in batch: insert_attorney(attorney, page)`. -/
def insertBatch (db : List Row) (page : Nat) (batch : List Attorney) : List Row :=
  batch.foldl (fun d a => insert_attorney d a page) db

/-- The `while batch:` loop of `main`, with each iteration's parse result
supplied as a list: `Except.ok batch` is a successfully parsed batch,
`Except.error e` an exception raised while fetching/parsing that page
(extraction errors propagate out of `parse`, see `extractAll`).  The
result is the final store plus the exception that ended the run (`none`
when the run completed on an empty batch or exhausted the schedule).  An
exception ends the run immediately — it propagates to the `except` at the
top of `main` — leaving exactly the rows already committed. -/
def mainLoop (db : List Row) (page : Nat) :
    List (Except PyErr (List Attorney)) → List Row × Option PyErr
  | [] => (db, none)
  | Except.error e :: _ => (db, some e)
  | Except.ok batch :: rest =>
    if batch.isEmpty then (db, none)
    else mainLoop (insertBatch db page batch) (page + 1) rest

/-- Store contents after ingesting the given batches at consecutive page
ordinals starting from `page`. -/
def insertPages (db : List Row) (page : Nat) : List (List Attorney) → List Row
  | [] => db
  | b :: bs => insertPages (insertBatch db page b) (page + 1) bs

/-! ### The retry loop of `TexasBarProfile.retrieve`

```
success = False
while not success:
    try:
        result = requests.post(...)
        success = True
    except Exception:
        print(...); time.sleep(5)
return result
```

`attempts k` is the outcome of the `k`-th `requests.post` call: `ok r`
a completed HTTP exchange with response `r` (whatever its body says),
`error ()` a transport-level exception.  The loop is modelled with fuel;
`some (r, k)` means the loop returned response `r` after `k` failed
attempts (hence `k` sleeps), `none` that no attempt within the fuel
succeeded (the real loop would still be running). -/
def retryFetch {R : Type} (attempts : Nat → Except Unit R) : Nat → Option (R × Nat)
  | 0 => none
  | fuel + 1 =>
    match attempts 0 with
    | Except.ok r => some (r, 0)
    | Except.error _ =>
      (retryFetch (fun n => attempts (n + 1)) fuel).map fun p => (p.1, p.2 + 1)

/-! ### The request parameters of `TexasBarProfile.retrieve`

`self.data` is a dict shared across calls; `retrieve` overwrites a fixed
set of keys on every call and, only when `page > 0`, an additional set of
pagination keys.  The dict is modelled as `String → Option Val`; each
`self.data[k] = v` statement becomes one element of a write list. -/

/-- A dict value: the code stores strings and ints. -/
inductive Val : Type where
  | s : String → Val
  | n : Nat → Val
deriving DecidableEq, Repr

/-- The mutable `self.data` dict. -/
def ParamDict : Type := String → Option Val

/-- `self.data[k] = v`. -/
def setK (d : ParamDict) (k : String) (v : Val) : ParamDict :=
  fun q => if q = k then some v else d q

/-- Execute a list of dict assignments in order. -/
def applyWrites (d : ParamDict) : List (String × Val) → ParamDict
  | [] => d
  | (k, v) :: rest => applyWrites (setK d k v) rest

/-- `PAGE_MAX = 200`. -/
def PAGE_MAX : Nat := 200

/-- The arguments of `retrieve` (defaults: empty strings, page 0). -/
structure Args where
  city : String
  county : String
  state : String
  zip_code : String
  name : String
  company : String
  barcard : String
  page : Nat
deriving DecidableEq, Repr

/-- The assignments executed by every `retrieve` call (lines 67–77 of
`texas_bar_profile.py`), in source order. -/
def baseWrites (a : Args) : List (String × Val) :=
  [("PracticeArea", Val.s "42,25,47,52,40,54"),
   ("PPlCityName", Val.s a.city),
   ("County", Val.s a.county),
   ("State", Val.s a.state),
   ("Zip", Val.s a.zip_code),
   ("Name", Val.s a.name),
   ("CompanyName", Val.s a.company),
   ("BarCardNumber", Val.s a.barcard),
   ("ShowPrinter", Val.s "1"),
   ("Submitted", Val.s "1"),
   ("Find", Val.s "0")]

/-- The additional assignments executed only when `page > 0`
(lines 80–97), in source order. -/
def pageWrites (a : Args) : List (String × Val) :=
  [("SortName", Val.s ""),
   ("FirstName", Val.s ""),
   ("Name", Val.s ""),
   ("LastName", Val.s ""),
   ("InformalName", Val.s ""),
   ("Region", Val.s ""),
   ("Country", Val.s ""),
   ("FilterName", Val.s ""),
   ("ShowOnlyTypes", Val.s ""),
   ("BarDistrict", Val.s ""),
   ("TYLADistrict", Val.s ""),
   ("Start", Val.s ""),
   ("MaxNumber", Val.n PAGE_MAX),
   ("Page", Val.n (a.page * PAGE_MAX + 1)),
   ("Prev", Val.n ((a.page - 1) * PAGE_MAX + 1)),
   ("Next", Val.n (a.page * PAGE_MAX + 1)),
   ("ButtonName", Val.s "Page")]

/-- The keys written by every call. -/
def baseKeys : List String :=
  ["PracticeArea", "PPlCityName", "County", "State", "Zip", "Name",
   "CompanyName", "BarCardNumber", "ShowPrinter", "Submitted", "Find"]

/-- The keys written only by `page > 0` calls. -/
def pageKeys : List String :=
  ["SortName", "FirstName", "Name", "LastName", "InformalName", "Region",
   "Country", "FilterName", "ShowOnlyTypes", "BarDistrict", "TYLADistrict",
   "Start", "MaxNumber", "Page", "Prev", "Next", "ButtonName"]

/-- `self.data` as initialised by `TexasBarProfile.__init__`. -/
def initData : ParamDict :=
  applyWrites (fun _ => none)
    [("PPlCityName", Val.s ""),
     ("County", Val.s ""),
     ("State", Val.s ""),
     ("Zip", Val.s "75093"),
     ("Name", Val.s ""),
     ("CompanyName", Val.s ""),
     ("BarCardNumber", Val.s ""),
     ("Submitted", Val.s "1"),
     ("ShowPrinter", Val.s "1"),
     ("Find", Val.s "0")]

/-- The effect of one `retrieve(...)` call on `self.data` (the dict that
is then posted to the site). -/
def retrieveData (d : ParamDict) (a : Args) : ParamDict :=
  if 0 < a.page then applyWrites (applyWrites d (baseWrites a)) (pageWrites a)
  else applyWrites d (baseWrites a)

/-- The dict state after a sequence of `retrieve` calls on one session. -/
def applyCalls (d : ParamDict) : List Args → ParamDict
  | [] => d
  | c :: cs => applyCalls (retrieveData d c) cs

end TexasBar

deriving instance DecidableEq for Except

namespace TexasBar

/-! ### Helper lemmas -/

lemma pySplitOnce_spec (c : Char) :
    ∀ (l a b : List Char), pySplitOnce c l = some (a, b) → a ++ c :: b = l ∧ c ∉ a := by
  intro l
  induction l with
  | nil => intro a b h; cases h
  | cons x xs ih =>
    intro a b h
    by_cases hx : x = c
    · simp only [pySplitOnce, if_pos hx, Option.some.injEq, Prod.mk.injEq] at h
      obtain ⟨ha, hb⟩ := h
      subst ha; subst hb
      exact ⟨by simp [hx], by simp⟩
    · simp only [pySplitOnce, if_neg hx, Option.map_eq_some'] at h
      obtain ⟨⟨a0, b0⟩, hp, heq⟩ := h
      obtain ⟨hspec1, hspec2⟩ := ih a0 b0 hp
      obtain ⟨ha, hb⟩ := Prod.mk.injEq _ _ _ _ ▸ heq
      subst ha; subst hb
      refine ⟨by simpa using hspec1, ?_⟩
      intro hc
      rcases List.mem_cons.mp hc with hc | hc
      · exact hx hc.symm
      · exact hspec2 hc

lemma pySplitOnce_mem (c : Char) :
    ∀ l : List Char, c ∈ l → ∃ p, pySplitOnce c l = some p := by
  intro l
  induction l with
  | nil => intro h; cases h
  | cons x xs ih =>
    intro hmem
    by_cases hx : x = c
    · exact ⟨([], xs), by simp [pySplitOnce, hx]⟩
    · have hxs : c ∈ xs := by
        rcases List.mem_cons.mp hmem with h | h
        · exact absurd h.symm hx
        · exact h
      obtain ⟨p, hp⟩ := ih hxs
      exact ⟨(x :: p.1, p.2), by simp [pySplitOnce, hx, hp]⟩

/-! ### C3: name splitting -/

/-- C3: name splitting.  For a listing entry: with two given-name elements
the first (stripped) is the given name and the second the middle name;
with exactly one given-name element whose stripped text contains a space,
it is split at the first space (the given name is everything before the
first space, the middle name everything after it); otherwise the whole
stripped token is the given name and the middle name is empty. -/
theorem name_splitting :
    (∀ a b : String, splitGivenNames [a, b] = (pyStrip a, pyStrip b)) ∧
    (∀ a : String, ' ' ∈ (pyStrip a).data →
      (splitGivenNames [a]).1.data ++ ' ' :: (splitGivenNames [a]).2.data =
          (pyStrip a).data ∧
        ' ' ∉ (splitGivenNames [a]).1.data) ∧
    (∀ a : String, ' ' ∉ (pyStrip a).data →
      splitGivenNames [a] = (pyStrip a, "")) := by
  refine ⟨fun a b => rfl, fun a hmem => ?_, fun a hmem => ?_⟩
  · have hc : (pyStrip a).data.contains ' ' = true := by
      simp [List.contains, List.elem_iff, hmem]
    obtain ⟨⟨a0, b0⟩, hp⟩ := pySplitOnce_mem ' ' (pyStrip a).data hmem
    have hrw : splitGivenNames [a] = (⟨a0⟩, ⟨b0⟩) := by
      simp [splitGivenNames, hc, hp]
      exact fun hn => absurd hmem hn
    obtain ⟨h1, h2⟩ := pySplitOnce_spec ' ' (pyStrip a).data a0 b0 hp
    rw [hrw]
    exact ⟨h1, h2⟩
  · have hc : (pyStrip a).data.contains ' ' = false := by
      simp [List.contains, hmem]
    simp [splitGivenNames, hc]
    exact fun hn => absurd hn hmem

/-- C3 witness: the space-splitting branch at the concrete element
`"John Q"`. -/
theorem name_splitting_witness :
    (splitGivenNames ["John Q"]).1.data ++ ' ' :: (splitGivenNames ["John Q"]).2.data =
        (pyStrip "John Q").data ∧
      ' ' ∉ (splitGivenNames ["John Q"]).1.data :=
  name_splitting.2.1 "John Q" (by decide)

/-! ### C6: the two-line address example -/

/-- C6 counterexample: on the spec's concrete two-line address markup the
code does not return state `"TX"` — the space following the comma is never
stripped, so the state field keeps it. -/
theorem address_example_state_not_trimmed :
    parse_address ["123 Main St", "Dallas, TX\u00A075201"] [] ≠
      Except.ok ⟨"123 Main St", "Dallas", "TX", "75201"⟩ := by
  decide

/-- C6 amended: on the two-line markup `"123 Main St"` /
`"Dallas, TX 75201"` the parser returns street `"123 Main St"`,
city `"Dallas"`, state `" TX"` (with the leading space that followed the
comma — the split at the comma does not trim), and zip `"75201"`. -/
theorem address_example_parse :
    parse_address ["123 Main St", "Dallas, TX\u00A075201"] [] =
      Except.ok ⟨"123 Main St", "Dallas", " TX", "75201"⟩ := by
  decide

/-! ### C10: `parse_address` needs a second line part -/

/-- C10: `parse_address` is partial in its line parts: fewer than two
children raise `IndexError` at the `parts[1]` test, and on the fallback
path (second child renders empty) fewer than two raw strings raise
`IndexError` as well — the function never returns a street-only address
in these cases. -/
theorem parse_address_needs_second_part :
    (∀ children strs : List String, children.length < 2 →
      parse_address children strs = Except.error PyErr.indexError) ∧
    (∀ children strs : List String, (children.map pyStrip).get? 1 = some "" →
      strs.length < 2 →
      parse_address children strs = Except.error PyErr.indexError) := by
  constructor
  · intro children strs hlen
    rcases children with _ | ⟨c1, _ | ⟨c2, cs⟩⟩
    · rfl
    · rfl
    · simp at hlen
      omega
  · intro children strs hsecond hlen
    have h1 : pyIndex (children.map pyStrip) 1 = Except.ok "" := by
      unfold pyIndex
      rw [hsecond]
    rcases strs with _ | ⟨s, _ | ⟨s2, ss⟩⟩
    · simp only [parse_address, h1, if_true]
      rfl
    · simp only [parse_address, h1, if_true]
      rfl
    · simp at hlen
      omega

/-- C10 witness: a one-line markup raises, and a markup whose second child
renders empty with a single raw string raises on the fallback path. -/
theorem parse_address_needs_second_part_witness :
    parse_address ["123 Main St"] [] = Except.error PyErr.indexError ∧
    parse_address ["123 Main St", ""] ["123 Main St Dallas"] =
      Except.error PyErr.indexError :=
  ⟨parse_address_needs_second_part.1 ["123 Main St"] [] (by decide),
   parse_address_needs_second_part.2 ["123 Main St", ""] ["123 Main St Dallas"]
     (by decide) (by decide)⟩

/-! ### C4: optional fields -/

/-- C4 counterexample: an entry whose markup omits the honorific-prefix
span (all other fields present) does not yield a record with an empty
prefix — `prefix.text.strip()` on `None` raises `AttributeError`. -/
theorem missing_honorific_raises :
    extractEntry
        ⟨none, ["John"], none, some "Doe", some "Jr.", some "Smith LLP",
         none, none, some "/am/detail"⟩
        ⟨"24000000", "01/01/2001", none⟩ =
      Except.error PyErr.attributeError := by
  decide

/-- C4 amended: only the familiar name, phone and address block degrade to
empty values when missing; an entry missing any of those three (but whose
prefix, family name, suffix, firm and detail link are present) still
yields a record, with the empty string (or `none` address) in the missing
fields.  A missing prefix or suffix instead raises `AttributeError`
(see the counterexample). -/
theorem optional_fields_degrade (p fam sx fm dl : String) (gn : List String)
    (d : DetailPage) :
    ∃ a, extractEntry ⟨some p, gn, none, some fam, some sx, some fm, none, none, some dl⟩ d =
        Except.ok a ∧
      a.familiar_name = "" ∧ a.telephone = "" ∧ a.address = none :=
  ⟨_, rfl, rfl, rfl, rfl⟩

/-! ### C5: a malformed entry aborts the page -/

lemma extractAll_append_error (e : Entry) (d : DetailPage) (err : PyErr)
    (hE : extractEntry e d = Except.error err) :
    ∀ pre post, (∀ p ∈ pre, ∃ a, extractEntry p.1 p.2 = Except.ok a) →
      extractAll (pre ++ (e, d) :: post) = Except.error err := by
  intro pre
  induction pre with
  | nil =>
    intro post _
    simp [extractAll, hE]
  | cons q qre ih =>
    intro post hpre
    obtain ⟨a, ha⟩ := hpre q (List.mem_cons_self q qre)
    have htail := ih post fun p hp => hpre p (List.mem_cons_of_mem q hp)
    simp [extractAll, ha, htail]

/-- C5 amended: an entry missing a required field (no family-name element,
or no detail link) makes extraction of that entry raise an exception, and
that exception propagates out of `list(extract(...))`: the whole page's
parse fails with it, producing no records at all — the malformed entry is
not "excluded" and the remaining well-formed entries are lost. -/
theorem required_field_aborts_page (e : Entry) (d : DetailPage)
    (h : e.family = none ∨ e.detail = none) :
    ∃ err, extractEntry e d = Except.error err ∧
      ∀ pre post, (∀ p ∈ pre, ∃ a, extractEntry p.1 p.2 = Except.ok a) →
        extractAll (pre ++ (e, d) :: post) = Except.error err := by
  have key : ∃ err, extractEntry e d = Except.error err := by
    rcases haddr : addrStep e.addr with err | address
    · exact ⟨err, by simp [extractEntry, haddr]⟩
    · rcases hdet : e.detail with _ | durl
      · exact ⟨PyErr.typeError, by simp [extractEntry, haddr, hdet]⟩
      · have hfam : e.family = none := by
          rcases h with h | h
          · exact h
          · rw [h] at hdet
            cases hdet
        rcases hpfx : getAttr e.pfx with err2 | ptext
        · exact ⟨err2, by simp [extractEntry, haddr, hdet, hpfx]⟩
        · refine ⟨PyErr.attributeError, ?_⟩
          have hfa : getAttr e.family = Except.error PyErr.attributeError := by
            rw [hfam]
            rfl
          simp [extractEntry, haddr, hdet, hpfx, hfa]
  obtain ⟨err, herr⟩ := key
  exact ⟨err, herr, fun pre post hpre => extractAll_append_error e d err herr pre post hpre⟩

/-- The concrete malformed entry (no family-name element) used by the C5
counterexample and witness. -/
def entryNoFamily : Entry :=
  ⟨some "Mr.", ["John"], none, none, some "Jr.", some "Smith LLP",
   none, none, some "/am/detail"⟩

/-- A well-formed companion entry on the same page. -/
def entryOk : Entry :=
  ⟨some "Ms.", ["Jane"], none, some "Roe", some "", some "Roe LLP",
   none, none, some "/am/detail2"⟩

/-- A detail page with no practice-areas block. -/
def sampleDetail : DetailPage := ⟨"24000000", "01/01/2001", none⟩

/-- C5 counterexample: a page whose first entry lacks the family-name
element and whose second entry is well-formed produces no records at all —
the parse raises `AttributeError` instead of yielding the well-formed
entry. -/
theorem malformed_entry_aborts_page :
    extractAll [(entryNoFamily, sampleDetail), (entryOk, sampleDetail)] =
      Except.error PyErr.attributeError := by
  decide

/-- C5 witness: the amended theorem applied to the concrete malformed
entry. -/
theorem required_field_aborts_page_witness :
    ∃ err, extractEntry entryNoFamily sampleDetail = Except.error err ∧
      ∀ pre post, (∀ p ∈ pre, ∃ a, extractEntry p.1 p.2 = Except.ok a) →
        extractAll (pre ++ (entryNoFamily, sampleDetail) :: post) = Except.error err :=
  required_field_aborts_page entryNoFamily sampleDetail (Or.inl rfl)

/-! ### C1: idempotent upsert -/

/-- C1: `insert_attorney` is an insert-or-ignore upsert.  For any two
records sharing a `bar_number`: the second insert is a no-op on the store
left by the first, and — provided the store held no row for that
`bar_number` beforehand — the store afterwards holds exactly one row for
that `bar_number`, whose column values are those supplied by the first
call. -/
theorem insert_attorney_idempotent (db : List Row) (a1 a2 : Attorney) (p1 p2 : Nat)
    (hbar : a2.bar_number = a1.bar_number)
    (hfresh : ∀ r ∈ db, r.bar_number ≠ a1.bar_number) :
    insert_attorney (insert_attorney db a1 p1) a2 p2 = insert_attorney db a1 p1 ∧
    (insert_attorney (insert_attorney db a1 p1) a2 p2).filter
        (fun r => r.bar_number == a1.bar_number) = [mkRow a1 p1] := by
  have h1 : (db.any fun r => r.bar_number == a1.bar_number) = false := by
    rw [List.any_eq_false]
    intro r hr
    simpa using hfresh r hr
  have e1 : insert_attorney db a1 p1 = db ++ [mkRow a1 p1] := by
    simp [insert_attorney, h1]
  have h2 : ((db ++ [mkRow a1 p1]).any fun r => r.bar_number == a2.bar_number) = true := by
    rw [List.any_append]
    simp [mkRow, hbar]
  have e2 : insert_attorney (insert_attorney db a1 p1) a2 p2 = db ++ [mkRow a1 p1] := by
    rw [e1]
    simp [insert_attorney, h2]
  refine ⟨by rw [e2, e1], ?_⟩
  rw [e2, List.filter_append]
  have hdb : db.filter (fun r => r.bar_number == a1.bar_number) = [] := by
    rw [List.filter_eq_nil_iff]
    intro r hr
    simpa using hfresh r hr
  rw [hdb]
  simp [mkRow]

/-- Two concrete records sharing a `bar_number` but differing elsewhere. -/
def wAtty1 : Attorney :=
  ⟨"24001111", "01/01/2001", "Mr.", "John", "Q", "Doe", "", "Firm One",
   none, "", "", "/am/a", none⟩

/-- Second record with the same `bar_number` as `wAtty1`. -/
def wAtty2 : Attorney :=
  ⟨"24001111", "02/02/2002", "Ms.", "Jane", "R", "Roe", "", "Firm Two",
   none, "", "", "/am/b", none⟩

/-- C1 witness: the idempotence theorem at two concrete records sharing a
`bar_number`, starting from the empty store. -/
theorem insert_attorney_idempotent_witness :
    insert_attorney (insert_attorney [] wAtty1 0) wAtty2 1 = insert_attorney [] wAtty1 0 ∧
    (insert_attorney (insert_attorney [] wAtty1 0) wAtty2 1).filter
        (fun r => r.bar_number == wAtty1.bar_number) = [mkRow wAtty1 0] :=
  insert_attorney_idempotent [] wAtty1 wAtty2 0 1 (by decide) (by simp)

/-! ### C7: pagination terminates -/

lemma fetchLoop_mem {A : Type} (pages : Nat → List A) :
    ∀ fuel n m, m ∈ fetchLoop pages n fuel →
      ∀ k, n ≤ k → k < m → pages k ≠ [] := by
  intro fuel
  induction fuel with
  | zero =>
    intro n m h
    simp [fetchLoop] at h
  | succ f ih =>
    intro n m h k hnk hkm
    rw [fetchLoop] at h
    by_cases he : (pages n).isEmpty
    · simp [he] at h
    · rw [if_neg he] at h
      rcases List.mem_cons.mp h with rfl | h
      · have hk : k = n := by omega
        subst hk
        intro hc
        exact he (by simp [hc])
      · by_cases hk : k = n
        · subst hk
          intro hc
          exact he (by simp [hc])
        · exact ih (n + 1) m h k (by omega) hkm

/-- C7: pagination terminates.  If the parser yields an empty batch for
page `N`, then no page beyond `N` is ever fetched by `main`'s loop: every
fetched ordinal `m > N` would require page `N`'s batch to be non-empty. -/
theorem pagination_terminates {A : Type} (pages : Nat → List A) (fuel N m : Nat)
    (hN : pages N = []) (hm : N < m) : m ∉ fetchedPages pages fuel := by
  intro hmem
  rcases List.mem_cons.mp hmem with rfl | h
  · omega
  · exact fetchLoop_mem pages fuel 0 m h N (Nat.zero_le N) hm hN

/-- C7 witness: with page 0 non-empty and page 1 empty, page 2 is never
fetched. -/
theorem pagination_terminates_witness :
    2 ∉ fetchedPages (fun n => if n = 0 then [0] else ([] : List Nat)) 5 :=
  pagination_terminates (fun n => if n = 0 then [0] else ([] : List Nat)) 5 1 2
    (by decide) (by decide)

/-! ### C8: the retrieve retry loop -/

lemma retryFetch_first_ok {R : Type} :
    ∀ (k : Nat) (attempts : Nat → Except Unit R) (fuel : Nat) (r : R),
      (∀ j, j < k → attempts j = Except.error ()) → attempts k = Except.ok r →
      k < fuel → retryFetch attempts fuel = some (r, k) := by
  intro k
  induction k with
  | zero =>
    intro attempts fuel r _ hk hkf
    cases fuel with
    | zero => omega
    | succ f =>
      rw [retryFetch, hk]
  | succ n ih =>
    intro attempts fuel r hj hk hkf
    cases fuel with
    | zero => omega
    | succ f =>
      have h0 : attempts 0 = Except.error () := hj 0 (Nat.succ_pos n)
      rw [retryFetch, h0]
      have hrec := ih (fun j => attempts (j + 1)) f r
        (fun j hjn => hj (j + 1) (by omega)) hk (by omega)
      rw [hrec]
      rfl

lemma retryFetch_all_fail {R : Type} :
    ∀ (fuel : Nat) (attempts : Nat → Except Unit R),
      (∀ j, attempts j = Except.error ()) → retryFetch attempts fuel = none := by
  intro fuel
  induction fuel with
  | zero => intro attempts _; rfl
  | succ f ih =>
    intro attempts hall
    rw [retryFetch, hall 0, ih (fun j => attempts (j + 1)) (fun j => hall (j + 1))]
    rfl

/-- C8: the retrieve retry loop.  First conjunct: if the first `k`
`requests.post` attempts raise and attempt `k` completes with response
`r`, the loop returns exactly that response — whatever its body — after
`k` sleep-and-retry rounds, with no retry after the completed exchange.
Second conjunct: while every attempt raises, the loop produces nothing
(it never surfaces a transport error to the caller; it just keeps
sleeping and retrying). -/
theorem retrieve_retries {R : Type} (attempts : Nat → Except Unit R) (fuel : Nat) :
    (∀ k r, (∀ j, j < k → attempts j = Except.error ()) →
      attempts k = Except.ok r → k < fuel →
      retryFetch attempts fuel = some (r, k)) ∧
    ((∀ j, attempts j = Except.error ()) → retryFetch attempts fuel = none) :=
  ⟨fun k r hj hk hkf => retryFetch_first_ok k attempts fuel r hj hk hkf,
   fun hall => retryFetch_all_fail fuel attempts hall⟩

/-- The attempt schedule used by the C8 witness: two transport failures,
then a completed exchange. -/
def wAttempts : Nat → Except Unit Nat :=
  fun j => if j < 2 then Except.error () else Except.ok 42

/-- C8 witness: the retry theorem at a schedule failing twice then
succeeding — the loop returns the third attempt's response after two
sleeps. -/
theorem retrieve_retries_witness : retryFetch wAttempts 5 = some (42, 2) :=
  (retrieve_retries wAttempts 5).1 2 42
    (fun j hj => by simp [wAttempts, hj]) (by decide) (by decide)

/-! ### C9: a fatal exception preserves the store -/

/-- C9: any exception other than a (transparently retried) transport
failure that arises while fetching/parsing a page ends the run at that
point: the loop of `main` stops with that exception (it propagates to the
top-level handler), the batches after it are never processed, and the
store still holds exactly the rows inserted for the pages that completed
before the failure — each `insert_attorney` commits individually, so
nothing persisted is lost. -/
theorem fatal_exception_preserves_store (good : List (List Attorney)) (e : PyErr)
    (rest : List (Except PyErr (List Attorney))) (db : List Row) (page : Nat)
    (hne : ∀ b ∈ good, b ≠ []) :
    mainLoop db page (good.map Except.ok ++ Except.error e :: rest) =
      (insertPages db page good, some e) := by
  induction good generalizing db page with
  | nil => simp [mainLoop, insertPages]
  | cons b bs ih =>
    have hb : b.isEmpty = false := by
      simpa [List.isEmpty_iff] using hne b (List.mem_cons_self b bs)
    simp only [List.map_cons, List.cons_append, mainLoop, hb, Bool.false_eq_true,
      if_false, insertPages]
    exact ih _ _ (fun b2 hb2 => hne b2 (List.mem_cons_of_mem b hb2))

/-- C9 witness: one good page of one record, then a fatal `TypeError`:
the run ends with the error and the store holds exactly that page's
insert. -/
theorem fatal_exception_preserves_store_witness :
    mainLoop [] 0 [Except.ok [wAtty1], Except.error PyErr.typeError] =
      (insertPages [] 0 [[wAtty1]], some PyErr.typeError) :=
  fatal_exception_preserves_store [[wAtty1]] PyErr.typeError [] [] 0 (by decide)

/-! ### C2: request-parameter construction -/

lemma applyWrites_not_mem :
    ∀ (ws : List (String × Val)) (d : ParamDict) (k : String),
      k ∉ ws.map Prod.fst → applyWrites d ws k = d k := by
  intro ws
  induction ws with
  | nil => intro d k _; rfl
  | cons w ws ih =>
    intro d k hk
    obtain ⟨k0, v0⟩ := w
    simp only [List.map_cons, List.mem_cons, not_or] at hk
    rw [applyWrites, ih _ k hk.2]
    simp [setK, hk.1]

lemma applyWrites_congr_mem :
    ∀ (ws : List (String × Val)) (d1 d2 : ParamDict) (k : String),
      k ∈ ws.map Prod.fst → applyWrites d1 ws k = applyWrites d2 ws k := by
  intro ws
  induction ws with
  | nil => intro d1 d2 k h; cases h
  | cons w ws ih =>
    intro d1 d2 k hk
    obtain ⟨k0, v0⟩ := w
    by_cases hmem : k ∈ ws.map Prod.fst
    · rw [applyWrites, applyWrites]
      exact ih _ _ k hmem
    · have hk0 : k = k0 := by
        rcases List.mem_cons.mp hk with h | h
        · exact h
        · exact absurd h hmem
      rw [applyWrites, applyWrites, applyWrites_not_mem ws _ k hmem,
        applyWrites_not_mem ws _ k hmem]
      simp [setK, hk0]

lemma map_fst_baseWrites (a : Args) : (baseWrites a).map Prod.fst = baseKeys := rfl

lemma map_fst_pageWrites (a : Args) : (pageWrites a).map Prod.fst = pageKeys := rfl

lemma retrieveData_congr_pos (a : Args) (d1 d2 : ParamDict) (hp : 0 < a.page)
    (h : ∀ k, k ∉ baseKeys → k ∉ pageKeys → d1 k = d2 k) :
    retrieveData d1 a = retrieveData d2 a := by
  funext k
  simp only [retrieveData, if_pos hp]
  by_cases h1 : k ∈ pageKeys
  · exact applyWrites_congr_mem _ _ _ k (by rw [map_fst_pageWrites]; exact h1)
  · have hpw : k ∉ (pageWrites a).map Prod.fst := by
      rw [map_fst_pageWrites]; exact h1
    rw [applyWrites_not_mem _ _ k hpw, applyWrites_not_mem _ _ k hpw]
    by_cases h2 : k ∈ baseKeys
    · exact applyWrites_congr_mem _ _ _ k (by rw [map_fst_baseWrites]; exact h2)
    · have hbw : k ∉ (baseWrites a).map Prod.fst := by
        rw [map_fst_baseWrites]; exact h2
      rw [applyWrites_not_mem _ _ k hbw, applyWrites_not_mem _ _ k hbw]
      exact h k h2 h1

lemma retrieveData_congr_zero (a : Args) (d1 d2 : ParamDict) (hp : ¬ 0 < a.page)
    (h : ∀ k, k ∉ baseKeys → d1 k = d2 k) :
    retrieveData d1 a = retrieveData d2 a := by
  funext k
  simp only [retrieveData, if_neg hp]
  by_cases h2 : k ∈ baseKeys
  · exact applyWrites_congr_mem _ _ _ k (by rw [map_fst_baseWrites]; exact h2)
  · rw [applyWrites_not_mem _ _ k (by rw [map_fst_baseWrites]; exact h2),
      applyWrites_not_mem _ _ k (by rw [map_fst_baseWrites]; exact h2)]
    exact h k h2

lemma retrieveData_preserves (d : ParamDict) (c : Args) (k : String)
    (h1 : k ∉ baseKeys) (h2 : k ∉ pageKeys) : retrieveData d c k = d k := by
  simp only [retrieveData]
  by_cases hp : 0 < c.page
  · rw [if_pos hp, applyWrites_not_mem _ _ k (by rw [map_fst_pageWrites]; exact h2),
      applyWrites_not_mem _ _ k (by rw [map_fst_baseWrites]; exact h1)]
  · rw [if_neg hp, applyWrites_not_mem _ _ k (by rw [map_fst_baseWrites]; exact h1)]

lemma applyCalls_preserves :
    ∀ (calls : List Args) (d : ParamDict) (k : String),
      k ∉ baseKeys → k ∉ pageKeys → applyCalls d calls k = d k := by
  intro calls
  induction calls with
  | nil => intro d k _ _; rfl
  | cons c cs ih =>
    intro d k h1 h2
    rw [applyCalls, ih _ k h1 h2, retrieveData_preserves d c k h1 h2]

lemma retrieveData_preserves_zero (d : ParamDict) (c : Args) (hc : c.page = 0)
    (k : String) (h1 : k ∉ baseKeys) : retrieveData d c k = d k := by
  simp only [retrieveData]
  rw [if_neg (by omega), applyWrites_not_mem _ _ k (by rw [map_fst_baseWrites]; exact h1)]

lemma applyCalls_preserves_zero :
    ∀ (calls : List Args) (d : ParamDict) (k : String),
      (∀ c ∈ calls, c.page = 0) → k ∉ baseKeys → applyCalls d calls k = d k := by
  intro calls
  induction calls with
  | nil => intro d k _ _; rfl
  | cons c cs ih =>
    intro d k hz h1
    rw [applyCalls, ih _ k (fun c2 hc2 => hz c2 (List.mem_cons_of_mem c hc2)) h1,
      retrieveData_preserves_zero d c (hz c (List.mem_cons_self c cs)) k h1]

/-- C2 counterexample: the parameter set is not a function of the current
call's arguments alone.  On a fresh session, `retrieve(page=1)` followed by
`retrieve(page=0)` posts a dict that still contains the pagination fields
(`Page`, `Prev`, `Next`, `ButtonName`, ...) from the first call, whereas
the same `retrieve(page=0)` on a fresh session posts no such fields: the
pagination keys are written only when `page > 0` and are never cleared
from the shared `self.data`. -/
theorem retrieve_params_leak :
    retrieveData (retrieveData initData ⟨"", "", "", "", "", "", "", 1⟩)
        ⟨"", "", "", "", "", "", "", 0⟩ ≠
      retrieveData initData ⟨"", "", "", "", "", "", "", 0⟩ := by
  intro hEq
  have h := congrFun hEq "Page"
  revert h
  decide

/-- C2 amended: the parameter set depends only on the current call's
arguments provided the current call has `page > 0` (every recognized
field, pagination included, is then rewritten) or no earlier call on the
session used `page > 0` (so no stale pagination field exists).  Without
that proviso the claim fails — see the counterexample: a `page = 0` call
resets only the base filter fields, and pagination fields written by an
earlier `page > 0` call leak into it. -/
theorem retrieve_params_fresh (calls : List Args) (a : Args)
    (h : 0 < a.page ∨ ∀ c ∈ calls, c.page = 0) :
    retrieveData (applyCalls initData calls) a = retrieveData initData a := by
  by_cases hp : 0 < a.page
  · exact retrieveData_congr_pos a _ _ hp
      fun k h1 h2 => applyCalls_preserves calls initData k h1 h2
  · rcases h with h | h0
    · exact absurd h hp
    · exact retrieveData_congr_zero a _ _ hp
        fun k h1 => applyCalls_preserves_zero calls initData k h0 h1

/-- C2 witness: after a `page = 1` call, a `page = 2` call posts the same
dict a fresh session would. -/
theorem retrieve_params_fresh_witness :
    retrieveData (applyCalls initData [⟨"", "", "", "", "", "", "", 1⟩])
        ⟨"", "", "", "", "", "", "", 2⟩ =
      retrieveData initData ⟨"", "", "", "", "", "", "", 2⟩ :=
  retrieve_params_fresh [⟨"", "", "", "", "", "", "", 1⟩]
    ⟨"", "", "", "", "", "", "", 2⟩ (Or.inl (by decide))

end TexasBar
